import Mathlib

/-!
Shallow embedding of `src/combine_pdf.py` (repository CopyZipDesktop):
identifier extraction (`extract_base_id`), docx/pdf pair validation
(`validate_docx_pdf_pairs`), batch merging (`merge_docx_pdf`) and the
A4 page-reflow geometry (`reprint_to_a4`).

Modelling conventions:
- Python floats are modelled as exact rationals (the claims are about the
  formulas, whose disagreements with the spec are far beyond rounding).
- The Python `re` module is external; a pattern is modelled abstractly as
  either `malformed` (raises `re.error` when tried, as the source catches)
  or a match function returning `m.group(0)` and `m.groups()`, where a
  capture group that did not participate in the match is `none`, exactly
  as `re.match` reports it.
- Python exceptions are an explicit `Except` with an inductive of the
  exception classes that the source raises or catches.
-/

/-- Python exception classes relevant to `combine_pdf.py`.  `ioError`
stands for the `OSError` = `IOError` family (`FileNotFoundError`,
`PermissionError`, ...); `comError` for `pywintypes.com_error`. -/
inductive PyExc where
  | reError
  | typeError
  | ioError
  | valueError
  | runtimeError
  | attributeError
  | comError
  | zeroDivisionError
  deriving DecidableEq

instance {ε α : Type} [DecidableEq ε] [DecidableEq α] : DecidableEq (Except ε α) := fun a b =>
  match a, b with
  | .ok x, .ok y =>
    if h : x = y then .isTrue (by rw [h]) else
      .isFalse (fun hc => h (Except.ok.inj hc))
  | .ok _, .error _ => .isFalse (fun hc => Except.noConfusion hc)
  | .error _, .ok _ => .isFalse (fun hc => Except.noConfusion hc)
  | .error x, .error y =>
    if h : x = y then .isTrue (by rw [h]) else
      .isFalse (fun hc => h (Except.error.inj hc))

/-- Result of a successful `re.match`: the matched text `m.group(0)` and
the capture groups `m.groups()`; a group that did not participate in the
match is `none` (Python `None`). -/
structure ReMatch where
  group0 : String
  groups : List (Option String)
  deriving DecidableEq

/-- A regex string as consumed by `extract_base_id`: `malformed` raises
`re.error` when used (caught and skipped by the source); `compiled run`
behaves as `fun stem => re.match(pattern, stem)`. -/
inductive RePattern where
  | malformed
  | compiled (run : String → Option ReMatch)

/-- Python `"-".join(ss)`: the strings joined with a single `-` between
consecutive elements. -/
def joinDash : List String → String
  | [] => ""
  | [s] => s
  | s :: rest => s ++ "-" ++ joinDash rest

/-- Python `"-".join(m.groups())`: every element must be a string; a
`None` group raises `TypeError` (which `extract_base_id` does not catch:
its `except` clause only catches `re.error`). -/
def joinGroups (gs : List (Option String)) : Except PyExc String :=
  match gs.mapM id with
  | some ss => .ok (joinDash ss)
  | none => .error .typeError

/-- `extract_base_id(filename_stem, regex_patterns)`,
`src/combine_pdf.py` lines 135-147: try the patterns in order; a
malformed pattern raises `re.error`, which is caught, logged, and the
loop continues; for the first pattern whose `re.match` succeeds, return
`"-".join(m.groups())` when the pattern defines capture groups (a
`TypeError` raised by a `None` group propagates out), and `m.group(0)`
when it defines none; return `None` when no pattern matches. -/
def extract_base_id (stem : String) : List RePattern → Except PyExc (Option String)
  | [] => .ok none
  | .malformed :: rest => extract_base_id stem rest
  | .compiled run :: rest =>
    match run stem with
    | none => extract_base_id stem rest
    | some m =>
      if m.groups.isEmpty then .ok (some m.group0)
      else (joinGroups m.groups).map some

/-- The first pattern in the list that is well formed and matches the
stem (helper for restating `extract_base_id` in first-match-wins form). -/
def firstRealMatch (stem : String) : List RePattern → Option ReMatch
  | [] => none
  | .malformed :: rest => firstRealMatch stem rest
  | .compiled run :: rest =>
    match run stem with
    | none => firstRealMatch stem rest
    | some m => some m

/-- What claim C1 says `extract_base_id` computes: for the first pattern
that matches, the `-`-join of all NON-EMPTY capture groups (groups that
did not participate in the match, and empty segments, are omitted), or
the full matched text if the pattern defines no groups; `none` if no
pattern matches. -/
def extract_base_id_claim (stem : String) (patterns : List RePattern) : Option String :=
  match firstRealMatch stem patterns with
  | none => none
  | some m =>
    if m.groups.isEmpty then some m.group0
    else some (joinDash ((m.groups.filterMap id).filter (fun s => !(s == ""))))

/-- What `extract_base_id` actually computes, restated without the loop:
for the first well-formed pattern that matches, the `-`-join of ALL
capture groups (empty matches included; a non-participating group raises
`TypeError`), or the full matched text if the pattern defines no groups;
`none` when no pattern matches. -/
def extract_base_id_amended (stem : String) (patterns : List RePattern) :
    Except PyExc (Option String) :=
  match firstRealMatch stem patterns with
  | none => .ok none
  | some m =>
    if m.groups.isEmpty then .ok (some m.group0)
    else (joinGroups m.groups).map some

/-- Models the Python regex `(\d+)(x*)` under `re.match`: a non-empty
run of digits, then a possibly empty run of `x`; both groups always
participate, the second possibly matching the empty string. -/
def reDigitsThenXs : RePattern :=
  .compiled (fun s =>
    let ds := s.data.takeWhile (fun c => c.isDigit)
    if ds.isEmpty then none
    else
      let xs := (s.data.drop ds.length).takeWhile (fun c => c == 'x')
      some ⟨⟨ds ++ xs⟩, [some ⟨ds⟩, some ⟨xs⟩]⟩)

/-- Models the Python regex `(\d+)(-[a-z]+)?` under `re.match`: a
non-empty run of digits, then an optional group of a dash and letters;
when the optional group is absent its value is `None`. -/
def reDigitsOptTag : RePattern :=
  .compiled (fun s =>
    let ds := s.data.takeWhile (fun c => c.isDigit)
    if ds.isEmpty then none
    else
      match (s.data.drop ds.length) with
      | '-' :: rest =>
        let ls := rest.takeWhile (fun c => c.isLower)
        if ls.isEmpty then some ⟨⟨ds⟩, [some ⟨ds⟩, none]⟩
        else some ⟨⟨ds ++ '-' :: ls⟩, [some ⟨ds⟩, some ⟨'-' :: ls⟩]⟩
      | _ => some ⟨⟨ds⟩, [some ⟨ds⟩, none]⟩)

/-- Models the Python regex `.+` under `re.match`: matches the whole
stem (stems contain no newline), with no capture groups defined. -/
def reAny : RePattern :=
  .compiled (fun s => if s = "" then none else some ⟨s, []⟩)

/-- A reference PDF on disk: its filename stem, and what
`PdfMerger.append` yields when reading it — the page list on success, or
the exception the read raises (a missing/unreadable file raises
`FileNotFoundError`/`PermissionError`, both in the `IOError` family).
Pages are abstract tokens, modelled as naturals. -/
structure PdfFile where
  stem : String
  content : Except PyExc (List Nat)
  deriving DecidableEq

/-- One configured output directory: the `rglob("*.docx")` result (the
stems, in scan order) and the `rglob("*.pdf")` result. -/
structure Directory where
  docxFiles : List String
  pdfFiles : List PdfFile

/-- The YAML configuration as consumed by `validate_docx_pdf_pairs` and
`merge_docx_pdf`: the `desktop_output` directories (the source
normalises a single string to a one-element list, which the model takes
as given) and the `regex_pattern` list. -/
structure Config where
  output_dirs : List Directory
  regex_pattern : List RePattern

/-- Python `dict.get`: first (only) binding of the key, if any. -/
def dictGet {α : Type} : List (String × α) → String → Option α
  | [], _ => none
  | (k, v) :: rest, key => if k = key then some v else dictGet rest key

/-- Python `d[key] = v`: replace the binding in place if the key is
present, else append a new binding at the end. -/
def dictSet {α : Type} : List (String × α) → String → α → List (String × α)
  | [], key, v => [(key, v)]
  | (k, w) :: rest, key, v =>
    if k = key then (k, v) :: rest else (k, w) :: dictSet rest key v

/-- Python `pdf_map.setdefault(base_id, []).append(pdf)`. -/
def pdfMapInsert : List (String × List PdfFile) → String → PdfFile → List (String × List PdfFile)
  | [], id, p => [(id, [p])]
  | (k, ps) :: rest, id, p =>
    if k = id then (k, ps ++ [p]) :: rest else (k, ps) :: pdfMapInsert rest id p

/-- Python `pdf_map.get(base_id, [])`. -/
def pdfMapGet (m : List (String × List PdfFile)) (id : String) : List PdfFile :=
  (dictGet m id).getD []

/-- The log lines `validate_docx_pdf_pairs` emits per docx file
(`src/combine_pdf.py` lines 182-198): no extractable id (warning),
missing pdf (error), several candidate pdfs (error), or a successful
match (info). -/
inductive VEvent where
  | noId (docx : String)
  | missingPdf (docx : String) (id : String)
  | multiplePdf (docx : String) (id : String)
  | matched (docx : String) (id : String)
  deriving DecidableEq

/-- Whether a validation event is the `❌ ... 对应多个 PDF` (ambiguous
reference) error line. -/
def VEvent.isMultiplePdf : VEvent → Bool
  | .multiplePdf _ _ => true
  | _ => false

/-- The `for pdf in pdf_files` loop of `validate_docx_pdf_pairs`
(`src/combine_pdf.py` lines 174-179): index the directory's pdfs by
extracted id, skipping falsy (absent or empty) ids; an exception from
`extract_base_id` propagates. -/
def buildPdfMap (pats : List RePattern) :
    List PdfFile → List (String × List PdfFile) → Except PyExc (List (String × List PdfFile))
  | [], m => .ok m
  | p :: rest, m =>
    match extract_base_id p.stem pats with
    | .error e => .error e
    | .ok none => buildPdfMap pats rest m
    | .ok (some id) =>
      if id = "" then buildPdfMap pats rest m
      else buildPdfMap pats rest (pdfMapInsert m id p)

/-- The `for docx in docx_files` loop of `validate_docx_pdf_pairs`
(`src/combine_pdf.py` lines 182-198): per docx, extract the id (falsy →
warning, skip), look it up in this directory's pdf map, and either
record a missing-pdf error, a multiple-pdf error, or assign
`pdf_index[base_id] = matched[0]`. -/
def validateDirLoop (pats : List RePattern) (pmap : List (String × List PdfFile)) :
    List String → List (String × PdfFile) → List VEvent →
    Except PyExc (List (String × PdfFile) × List VEvent)
  | [], idx, evs => .ok (idx, evs)
  | docx :: rest, idx, evs =>
    match extract_base_id docx pats with
    | .error e => .error e
    | .ok none => validateDirLoop pats pmap rest idx (evs ++ [.noId docx])
    | .ok (some id) =>
      if id = "" then validateDirLoop pats pmap rest idx (evs ++ [.noId docx])
      else
        match pdfMapGet pmap id with
        | [] => validateDirLoop pats pmap rest idx (evs ++ [.missingPdf docx id])
        | [p] => validateDirLoop pats pmap rest (dictSet idx id p) (evs ++ [.matched docx id])
        | _ :: _ :: _ => validateDirLoop pats pmap rest idx (evs ++ [.multiplePdf docx id])

/-- The `for directory in output_dirs` loop of
`validate_docx_pdf_pairs`: each directory builds its own pdf map and
runs the docx loop against the shared accumulating `pdf_index`. -/
def validateDirs (pats : List RePattern) :
    List Directory → List (String × PdfFile) → List VEvent →
    Except PyExc (List (String × PdfFile) × List VEvent)
  | [], idx, evs => .ok (idx, evs)
  | dir :: rest, idx, evs =>
    match buildPdfMap pats dir.pdfFiles [] with
    | .error e => .error e
    | .ok pmap =>
      match validateDirLoop pats pmap dir.docxFiles idx evs with
      | .error e => .error e
      | .ok (idx', evs') => validateDirs pats rest idx' evs'

/-- `validate_docx_pdf_pairs(cfg)`, `src/combine_pdf.py` lines 151-205:
returns `{}` at once when no regex patterns are configured; otherwise
scans each configured directory in turn, building a per-directory pdf
map and matching that directory's docx files against it, and returns
the accumulated `base_id -> pdf` index (the model also returns the
emitted log events). -/
def validate_docx_pdf_pairs (cfg : Config) :
    Except PyExc (List (String × PdfFile) × List VEvent) :=
  if cfg.regex_pattern.isEmpty then .ok ([], [])
  else validateDirs cfg.regex_pattern cfg.output_dirs [] []

/-- The exception classes caught by the per-pair `except (IOError,
ValueError)` clause of `merge_docx_pdf` (`src/combine_pdf.py` line
306). -/
def caughtByMergeLoop (e : PyExc) : Bool :=
  e = .ioError || e = .valueError

/-- Per-docx outcome of the merge loop, recording what happened to the
pair and which temporary file / page lists were involved.  `abortedConv`
and `abortedRef` record an exception that escaped the per-pair `except`
clause (which only catches `IOError` and `ValueError`) and
`abortedExtract` an exception from `extract_base_id`; in those cases the
loop stops and the exception propagates out of `merge_docx_pdf`. -/
inductive PairOutcome where
  | noId (docx : String)
  | noPdf (docx : String) (id : String)
  | convFailCaught (docx : String) (temp : Nat) (e : PyExc)
  | refFailCaught (docx : String) (temp : Nat) (dpages : List Nat) (e : PyExc)
  | merged (docx : String) (temp : Nat) (dpages rpages : List Nat)
  | abortedExtract (docx : String) (e : PyExc)
  | abortedConv (docx : String) (temp : Nat) (e : PyExc)
  | abortedRef (docx : String) (temp : Nat) (dpages : List Nat) (e : PyExc)
  deriving DecidableEq

/-- Pages this outcome leaves in the running `PdfMerger`: a fully merged
pair contributes its converted pages then its reference pages; a pair
whose reference append failed after the converted pdf was appended
contributes the converted pages only. -/
def contribution : PairOutcome → List Nat
  | .merged _ _ d r => d ++ r
  | .refFailCaught _ _ d _ => d
  | .abortedRef _ _ d _ => d
  | _ => []

/-- Temporary conversion files created while handling this outcome
(`tempfile.NamedTemporaryFile(delete=False)`, line 294). -/
def tempOf : PairOutcome → List Nat
  | .convFailCaught _ t _ => [t]
  | .refFailCaught _ t _ _ => [t]
  | .merged _ t _ _ => [t]
  | .abortedConv _ t _ => [t]
  | .abortedRef _ t _ _ => [t]
  | _ => []

/-- Temporary files registered in `temp_files` for end-of-run cleanup:
the registration (line 299) happens only after `convert_docx_to_pdf`
returned, so a temp file whose conversion raised is never registered. -/
def keptTemp : PairOutcome → List Nat
  | .refFailCaught _ t _ _ => [t]
  | .merged _ t _ _ => [t]
  | .abortedRef _ t _ _ => [t]
  | _ => []

/-- `appended_count` increment of this outcome (line 304). -/
def appendedOf : PairOutcome → Nat
  | .merged _ _ _ _ => 2
  | _ => 0

/-- Mutable state of the merge loop: the pages accumulated in the
`PdfMerger`, the temp files created so far, the `temp_files` cleanup
list, `appended_count`, the outcome trace, and the next fresh temp-file
name. -/
structure MState where
  merger : List Nat
  created : List Nat
  tempFiles : List Nat
  appended : Nat
  trace : List PairOutcome
  nextTemp : Nat
  deriving DecidableEq

/-- The state after handling one docx with outcome `en`: all the loop's
state components grow by exactly what the outcome dictates. -/
def pushEntry (st : MState) (en : PairOutcome) : MState :=
  { merger := st.merger ++ contribution en
    created := st.created ++ tempOf en
    tempFiles := st.tempFiles ++ keptTemp en
    appended := st.appended + appendedOf en
    trace := st.trace ++ [en]
    nextTemp := st.nextTemp + (tempOf en).length }

/-- The body of the `for docx in docx_files` loop of `merge_docx_pdf`
(`src/combine_pdf.py` lines 281-307): extract the id (falsy → warning,
skip), look it up in `pdf_index` (absent → warning, skip), then inside
`try`: create a temp file, convert the docx into it (modelled by the
gateway function `gw`), register the temp file in `temp_files`, append
the converted pdf, append the reference pdf, and bump `appended_count`;
`except (IOError, ValueError)` catches only those two classes, logging
and moving to the next docx; any other exception propagates (`.error`),
carrying the state for the `finally` cleanup. -/
def mergeStep (pats : List RePattern) (idx : List (String × PdfFile))
    (gw : String → Except PyExc (List Nat)) (st : MState) (docx : String) :
    Except (PyExc × MState) MState :=
  match extract_base_id docx pats with
  | .error e => .error (e, pushEntry st (.abortedExtract docx e))
  | .ok none => .ok (pushEntry st (.noId docx))
  | .ok (some id) =>
    if id = "" then .ok (pushEntry st (.noId docx))
    else
      match dictGet idx id with
      | none => .ok (pushEntry st (.noPdf docx id))
      | some pdf =>
        let t := st.nextTemp
        match gw docx with
        | .error e =>
          if caughtByMergeLoop e then .ok (pushEntry st (.convFailCaught docx t e))
          else .error (e, pushEntry st (.abortedConv docx t e))
        | .ok dpages =>
          match pdf.content with
          | .error e =>
            if caughtByMergeLoop e then .ok (pushEntry st (.refFailCaught docx t dpages e))
            else .error (e, pushEntry st (.abortedRef docx t dpages e))
          | .ok rpages => .ok (pushEntry st (.merged docx t dpages rpages))

/-- The merge loop over one directory's docx files; stops at the first
uncaught exception. -/
def mergeLoop (pats : List RePattern) (idx : List (String × PdfFile))
    (gw : String → Except PyExc (List Nat)) :
    List String → MState → Except (PyExc × MState) MState
  | [], st => .ok st
  | docx :: rest, st =>
    match mergeStep pats idx gw st docx with
    | .error es => .error es
    | .ok st' => mergeLoop pats idx gw rest st'

/-- The `for directory in output_dirs` loop of `merge_docx_pdf`. -/
def mergeDirs (pats : List RePattern) (idx : List (String × PdfFile))
    (gw : String → Except PyExc (List Nat)) :
    List Directory → MState → Except (PyExc × MState) MState
  | [], st => .ok st
  | dir :: rest, st =>
    match mergeLoop pats idx gw dir.docxFiles st with
    | .error es => .error es
    | .ok st' => mergeDirs pats idx gw rest st'

/-- Observable outcome of one `merge_docx_pdf` run: the combined output
file (written only when `appended_count > 0` and no exception escaped),
every temp file created, the temp files actually unlinked by the
`finally` block (the `temp_files` list), the outcome trace, and the
exception that propagated out of the call, if any. -/
structure MergeOutcome where
  written : Option (List Nat)
  created : List Nat
  deleted : List Nat
  trace : List PairOutcome
  raised : Option PyExc
  deriving DecidableEq

/-- `merge_docx_pdf(cfg)`, `src/combine_pdf.py` lines 260-325, with the
docx→pdf conversion `convert_docx_to_pdf` abstracted as the gateway
function `gw` (per the source, lines 209-256, it raises `RuntimeError`
off Windows or when pywin32/Word fail to start, and re-raises
`AttributeError` / `pywintypes.com_error` from the Word COM calls).
First `validate_docx_pdf_pairs` builds `pdf_index` (an exception there
propagates before any temp file exists); then each directory's docx
files are processed by `mergeLoop`; the `finally` block always unlinks
exactly the temp files registered in `temp_files`, and the output is
written only when `appended_count > 0` and no exception escaped. -/
def merge_docx_pdf (cfg : Config) (gw : String → Except PyExc (List Nat)) : MergeOutcome :=
  match validate_docx_pdf_pairs cfg with
  | .error e => { written := none, created := [], deleted := [], trace := [], raised := some e }
  | .ok (idx, _events) =>
    match mergeDirs cfg.regex_pattern idx gw cfg.output_dirs
        { merger := [], created := [], tempFiles := [], appended := 0, trace := [], nextTemp := 0 } with
    | .error (e, st) =>
      { written := none, created := st.created, deleted := st.tempFiles,
        trace := st.trace, raised := some e }
    | .ok st =>
      { written := if st.appended > 0 then some st.merger else none,
        created := st.created, deleted := st.tempFiles,
        trace := st.trace, raised := none }

/-- `mm_to_pt(mm)`, `src/combine_pdf.py` lines 329-333: millimetres to
PostScript points. -/
def mm_to_pt (mm : ℚ) : ℚ := mm * 72 / 25.4

/-- reportlab's `mm` unit: one millimetre in points. -/
def rlMM : ℚ := 72 / 25.4

/-- reportlab's `A4` page width in points (210 mm). -/
def a4W : ℚ := 210 * rlMM

/-- reportlab's `A4` page height in points (297 mm). -/
def a4H : ℚ := 297 * rlMM

/-- The per-page placement data computed by `reprint_to_a4`
(`src/combine_pdf.py` lines 388-438): the usable content area
(`content_w`/`content_h`, computed once per run from the target page and
the margin), and per page the rotation decision, the effective
dimensions (`target_w`/`target_h`), the raw and final scale, the placed
size, and the centring offsets. -/
structure PlacePlan where
  contentW : ℚ
  contentH : ℚ
  rotate90 : Bool
  effW : ℚ
  effH : ℚ
  scaleRaw : ℚ
  scale : ℚ
  placedW : ℚ
  placedH : ℚ
  offsetX : ℚ
  offsetY : ℚ
  deriving DecidableEq

/-- The placement computation of `reprint_to_a4` for one source page of
size `srcW × srcH` on a target page of size `targetW × targetH`
(`src/combine_pdf.py` lines 390-391 and 412-438; the source instantiates
the target at portrait A4).  Python raises `ZeroDivisionError` on a
float division by zero, so a zero effective dimension is an error; a
negative dimension divides fine and yields a negative scale. -/
def plan_page (srcW srcH targetW targetH marginPt : ℚ)
    (shrinkOnly rotateLandscape : Bool) : Except PyExc PlacePlan :=
  let contentW := max 1 (targetW - 2 * marginPt)
  let contentH := max 1 (targetH - 2 * marginPt)
  let isLandscape : Bool := decide (srcH < srcW)
  let rotate90 := rotateLandscape && isLandscape
  let effW := if rotate90 then srcH else srcW
  let effH := if rotate90 then srcW else srcH
  if effW = 0 then .error .zeroDivisionError
  else if effH = 0 then .error .zeroDivisionError
  else
    let scaleRaw := min (contentW / effW) (contentH / effH)
    let scale := if shrinkOnly then min 1 scaleRaw else scaleRaw
    let placedW := effW * scale
    let placedH := effH * scale
    .ok { contentW := contentW, contentH := contentH, rotate90 := rotate90,
          effW := effW, effH := effH, scaleRaw := scaleRaw, scale := scale,
          placedW := placedW, placedH := placedH,
          offsetX := marginPt + (contentW - placedW) / 2,
          offsetY := marginPt + (contentH - placedH) / 2 }

/-- One page of the output of `reprint_to_a4`: a fresh page of the
target (A4) size onto which the source page is drawn with the computed
placement (`c.translate` / `c.rotate(90)` / `c.scale` then `doForm`). -/
structure OutPage where
  pageW : ℚ
  pageH : ℚ
  srcW : ℚ
  srcH : ℚ
  plan : PlacePlan
  deriving DecidableEq

/-- `reprint_to_a4(input, output, margin_mm, shrink_only,
rotate_landscape_to_portrait)`, `src/combine_pdf.py` lines 337-480,
modelled on the list of source page sizes: every page, in original
order, is planned and drawn onto one fresh portrait-A4 page; an
exception on any page aborts the run before `c.save()`, so no output
pages are produced (`.error`). -/
def reprint_to_a4 (pages : List (ℚ × ℚ)) (marginMm : ℚ)
    (shrinkOnly rotateLandscape : Bool) : Except PyExc (List OutPage) :=
  let marginPt := mm_to_pt marginMm
  pages.mapM (fun pg =>
    (plan_page pg.1 pg.2 a4W a4H marginPt shrinkOnly rotateLandscape).map
      (fun pl => { pageW := a4W, pageH := a4H, srcW := pg.1, srcH := pg.2, plan := pl }))

/-- C1 (counterexample): the claim says non-participating and empty
capture groups are omitted from the join.  On stem `"12"` with pattern
`(\d+)(x*)`, the second group matches the empty string: the claim
predicts `"12"` but `extract_base_id` returns `"12-"` (an empty
segment).  On stem `"34"` with pattern `(\d+)(-[a-z]+)?`, the optional
group does not participate (`None`): the claim predicts `"34"` but
`"-".join(m.groups())` raises `TypeError`, which the function does not
catch. -/
theorem extract_base_id_c1_counterexample :
    extract_base_id "12" [reDigitsThenXs] = .ok (some "12-") ∧
      extract_base_id_claim "12" [reDigitsThenXs] = some "12" ∧
      ("12-" : String) ≠ "12" ∧
      extract_base_id "34" [reDigitsOptTag] = .error .typeError ∧
      extract_base_id_claim "34" [reDigitsOptTag] = some "34" :=
  ⟨by decide, by decide, by decide, by decide, by decide⟩

/-- C1 (amended): for the first well-formed pattern that matches the
stem, `extract_base_id` returns the `-`-join of ALL capture groups
(groups matching the empty string included, as empty segments); a group
that did not participate in the match raises an uncaught `TypeError`;
the full matched text is returned when the pattern defines no groups;
`None` when no pattern matches (malformed patterns are skipped). -/
theorem extract_base_id_c1_amended (stem : String) (pats : List RePattern) :
    extract_base_id stem pats = extract_base_id_amended stem pats := by
  induction pats with
  | nil => rfl
  | cons p rest ih =>
    cases p with
    | malformed =>
      rw [extract_base_id, ih]; rfl
    | compiled run =>
      cases h : run stem with
      | none => simpa [extract_base_id, extract_base_id_amended, firstRealMatch, h] using ih
      | some m => simp [extract_base_id, extract_base_id_amended, firstRealMatch, h]

/-- Helper: with both source dimensions nonzero, the page plan is
produced (no `ZeroDivisionError`). -/
lemma plan_page_ok_of_ne (srcW srcH tW tH m : ℚ) (so rl : Bool)
    (hw : srcW ≠ 0) (hh : srcH ≠ 0) :
    ∃ p, plan_page srcW srcH tW tH m so rl = .ok p := by
  simp only [plan_page]
  have hW : (if (rl && decide (srcH < srcW)) = true then srcH else srcW) ≠ 0 := by
    split <;> assumption
  have hH : (if (rl && decide (srcH < srcW)) = true then srcW else srcH) ≠ 0 := by
    split <;> assumption
  rw [if_neg hW, if_neg hH]
  exact ⟨_, rfl⟩

/-- Helper: the only exception `plan_page` raises is
`ZeroDivisionError` (an unguarded float division by zero). -/
lemma plan_page_error_zde (srcW srcH tW tH m : ℚ) (so rl : Bool) (e : PyExc)
    (h : plan_page srcW srcH tW tH m so rl = .error e) : e = .zeroDivisionError := by
  simp only [plan_page] at h
  split at h <;> split at h <;> try split at h
  all_goals
    first
      | exact (Except.error.inj h).symm
      | exact Except.noConfusion h

/-- C7: the placement plan of `reprint_to_a4` satisfies, field by field,
the formulas of the claim: clamped usable area, rotation iff the
rotate-landscape flag is set and the page is strictly landscape,
effective dimensions swapped under rotation, raw scale as the min of the
two usable/effective ratios, shrink-only clamping of the scale, and
margin-plus-half-gap centring offsets (stated with the symmetric-gap
consequence).  Hypotheses: both source dimensions nonzero, else the
computation raises instead of producing a plan. -/
theorem plan_c7_formulas (srcW srcH targetW targetH marginPt : ℚ)
    (shrinkOnly rotateLandscape : Bool) (hw : srcW ≠ 0) (hh : srcH ≠ 0) :
    ∃ p, plan_page srcW srcH targetW targetH marginPt shrinkOnly rotateLandscape = .ok p ∧
      p.contentW = max 1 (targetW - 2 * marginPt) ∧
      p.contentH = max 1 (targetH - 2 * marginPt) ∧
      (p.rotate90 = true ↔ (rotateLandscape = true ∧ srcH < srcW)) ∧
      p.effW = (if p.rotate90 = true then srcH else srcW) ∧
      p.effH = (if p.rotate90 = true then srcW else srcH) ∧
      p.scaleRaw = min (p.contentW / p.effW) (p.contentH / p.effH) ∧
      p.scale = (if shrinkOnly = true then min 1 p.scaleRaw else p.scaleRaw) ∧
      p.placedW = p.effW * p.scale ∧ p.placedH = p.effH * p.scale ∧
      p.offsetX = marginPt + (p.contentW - p.placedW) / 2 ∧
      p.offsetY = marginPt + (p.contentH - p.placedH) / 2 ∧
      p.offsetX - marginPt = p.contentW - p.placedW - (p.offsetX - marginPt) ∧
      p.offsetY - marginPt = p.contentH - p.placedH - (p.offsetY - marginPt) := by
  simp only [plan_page]
  have hW : (if (rotateLandscape && decide (srcH < srcW)) = true then srcH else srcW) ≠ 0 := by
    split <;> assumption
  have hH : (if (rotateLandscape && decide (srcH < srcW)) = true then srcW else srcH) ≠ 0 := by
    split <;> assumption
  rw [if_neg hW, if_neg hH]
  refine ⟨_, rfl, rfl, rfl, ?_, rfl, rfl, rfl, rfl, rfl, rfl, rfl, rfl, by ring, by ring⟩
  simp [Bool.and_eq_true, decide_eq_true_eq]

/-- C7 witness: the plan exists and satisfies the formulas at a concrete
input (a 100×50 landscape page on a 595×842 target with margin 10). -/
theorem plan_c7_formulas_witness :
    (plan_page 100 50 595 842 10 true true).isOk = true := by
  obtain ⟨p, hp, -⟩ := plan_c7_formulas 100 50 595 842 10 true true (by norm_num) (by norm_num)
  rw [hp]; rfl

/-- Helper: evaluation of the plan for a landscape 842×595 pt page on
the portrait-A4 target with a 10 mm margin, rotation and shrink-only
enabled. -/
lemma plan_page_c8_eval :
    plan_page 842 595 a4W a4H (mm_to_pt 10) true true =
      .ok { contentW := 68400/127, contentH := 99720/127, rotate90 := true,
            effW := 595, effH := 842, scaleRaw := 13680/15113, scale := 13680/15113,
            placedW := 68400/127, placedH := 11518560/15113,
            offsetX := 3600/127, offsetY := 602460/15113 } := by
  have h1 : a4W = 75600/127 := by norm_num [a4W, rlMM]
  have h2 : a4H = 106920/127 := by norm_num [a4H, rlMM]
  have h3 : mm_to_pt 10 = 3600/127 := by norm_num [mm_to_pt]
  have hcw : max (1 : ℚ) (75600/127 - 2 * (3600/127)) = 68400/127 := by
    rw [max_eq_right] <;> norm_num
  have hch : max (1 : ℚ) (106920/127 - 2 * (3600/127)) = 99720/127 := by
    rw [max_eq_right] <;> norm_num
  simp only [plan_page, h1, h2, h3, hcw, hch]
  norm_num

/-- C8 (counterexample): for the claimed scenario (landscape 842×595
source, portrait A4 target, 10 mm margin, rotation and shrink-only on)
the code's plan does NOT have `usableW = usableH` (they are 68400/127 ≈
538.58 and 99720/127 ≈ 785.20 — the claim's `538.3` matches neither),
its raw scale is not `min(538.3/595, 538.3/842)`, and its final scale is
not 0.639. -/
theorem plan_c8_counterexample :
    ∃ p, plan_page 842 595 a4W a4H (mm_to_pt 10) true true = .ok p ∧
      p.rotate90 = true ∧
      p.contentW ≠ p.contentH ∧
      p.contentW ≠ (538.3 : ℚ) ∧
      p.contentH ≠ (538.3 : ℚ) ∧
      p.scaleRaw ≠ min ((538.3 : ℚ) / 595) ((538.3 : ℚ) / 842) ∧
      p.scale ≠ (0.639 : ℚ) :=
  ⟨{ contentW := 68400/127, contentH := 99720/127, rotate90 := true,
     effW := 595, effH := 842, scaleRaw := 13680/15113, scale := 13680/15113,
     placedW := 68400/127, placedH := 11518560/15113,
     offsetX := 3600/127, offsetY := 602460/15113 },
   plan_page_c8_eval, rfl, by norm_num, by norm_num, by norm_num,
   by norm_num [min_def], by norm_num⟩

/-- C8 (amended): the true values for the claimed scenario: the page is
rotated, the effective dimensions are 595×842, the usable area is
68400/127 ≈ 538.58 by 99720/127 ≈ 785.20 pt, and the raw scale
min((68400/127)/595, (99720/127)/842) = 13680/15113 ≈ 0.9052 is already
≤ 1, so the shrink-only scale equals it. -/
theorem plan_c8_amended :
    plan_page 842 595 a4W a4H (mm_to_pt 10) true true =
      .ok { contentW := 68400/127, contentH := 99720/127, rotate90 := true,
            effW := 595, effH := 842, scaleRaw := 13680/15113, scale := 13680/15113,
            placedW := 68400/127, placedH := 11518560/15113,
            offsetX := 3600/127, offsetY := 602460/15113 } :=
  plan_page_c8_eval

/-- Helper: if every element maps to a success, `mapM` succeeds. -/
lemma mapM_ok_of_forall {α β : Type} (f : α → Except PyExc β) :
    ∀ l : List α, (∀ a ∈ l, ∃ b, f a = .ok b) → ∃ bs, l.mapM f = .ok bs
  | [], _ => ⟨[], rfl⟩
  | a :: l, h => by
    obtain ⟨b, hb⟩ := h a (List.mem_cons_self a l)
    obtain ⟨bs, hbs⟩ := mapM_ok_of_forall f l (fun x hx => h x (List.mem_cons_of_mem _ hx))
    exact ⟨b :: bs, by rw [List.mapM_cons, hb, hbs]; rfl⟩

/-- Helper: a failing `mapM` names an element on which `f` fails with
the same exception. -/
lemma mapM_error_mem {α β : Type} (f : α → Except PyExc β) :
    ∀ (l : List α) (e : PyExc), l.mapM f = .error e → ∃ a ∈ l, f a = .error e
  | [], e, h => by rw [List.mapM_nil] at h; exact Except.noConfusion h
  | a :: l, e, h => by
    rw [List.mapM_cons] at h
    cases hf : f a with
    | error e' =>
      rw [hf] at h
      refine ⟨a, List.mem_cons_self a l, ?_⟩
      rw [hf]
      exact congrArg Except.error (Except.error.inj h)
    | ok b =>
      rw [hf] at h
      cases hm : l.mapM f with
      | error e' =>
        rw [hm] at h
        obtain ⟨x, hx, hfx⟩ := mapM_error_mem f l e (by rw [hm]; exact congrArg Except.error (Except.error.inj h))
        exact ⟨x, List.mem_cons_of_mem _ hx, hfx⟩
      | ok bs => rw [hm] at h; exact Except.noConfusion h

/-- C9 (counterexample): a page with negative width (−10×20) does NOT
make the transform step fail — `reprint_to_a4` succeeds, silently
producing a plan with a negative scale; and a zero-dimension page fails
with a bare `ZeroDivisionError` that carries no page index: the same
error value results whether the degenerate page is the first or the
second page of the document. -/
theorem reprint_c9_counterexample :
    (reprint_to_a4 [(-10, 20)] 10 true true).isOk = true ∧
      reprint_to_a4 [(0, 5)] 10 true true = .error .zeroDivisionError ∧
      reprint_to_a4 [(595, 842), (0, 5)] 10 true true = .error .zeroDivisionError :=
  ⟨by decide, by decide, by decide⟩

/-- C9 (amended): the only failure `reprint_to_a4`'s page-transform
step produces is an unguarded `ZeroDivisionError` (attributable to no
page index), raised exactly when some page has a zero width or height;
pages whose dimensions are nonzero — including negative ones — are
processed without any error. -/
theorem reprint_c9_amended (pages : List (ℚ × ℚ)) (m : ℚ) (so rl : Bool) :
    ((∀ pg ∈ pages, pg.1 ≠ 0 ∧ pg.2 ≠ 0) →
        ∃ outs, reprint_to_a4 pages m so rl = .ok outs) ∧
      (∀ e, reprint_to_a4 pages m so rl = .error e → e = .zeroDivisionError) := by
  constructor
  · intro h
    simp only [reprint_to_a4]
    apply mapM_ok_of_forall
    intro pg hpg
    obtain ⟨p, hp⟩ :=
      plan_page_ok_of_ne pg.1 pg.2 a4W a4H (mm_to_pt m) so rl (h pg hpg).1 (h pg hpg).2
    exact ⟨_, by rw [hp]; rfl⟩
  · intro e he
    simp only [reprint_to_a4] at he
    obtain ⟨pg, -, hf⟩ := mapM_error_mem _ pages e he
    cases hpp : plan_page pg.1 pg.2 a4W a4H (mm_to_pt m) so rl with
    | ok p => rw [hpp] at hf; exact Except.noConfusion hf
    | error e' =>
      rw [hpp] at hf
      cases hf
      exact plan_page_error_zde pg.1 pg.2 a4W a4H (mm_to_pt m) so rl e hpp

/-- C9 amended witness: a negative-width page is processed without
error, and a zero-width page produces `ZeroDivisionError`. -/
theorem reprint_c9_amended_witness :
    (∃ outs, reprint_to_a4 [((-3 : ℚ), 7)] 5 true true = .ok outs) ∧
      PyExc.zeroDivisionError = PyExc.zeroDivisionError :=
  ⟨(reprint_c9_amended [((-3 : ℚ), 7)] 5 true true).1 (by decide),
   (reprint_c9_amended [((4 : ℚ), 0)] 5 true true).2 .zeroDivisionError (by decide)⟩

/-- C10 (counterexample): a readable one-page input whose page has zero
height makes `reprint_to_a4` abort with `ZeroDivisionError` before
`c.save()`: no output page is written, not the one-per-source-page the
claim promises. -/
theorem reprint_c10_counterexample :
    reprint_to_a4 [((5 : ℚ), 0)] 10 true true = .error .zeroDivisionError ∧
      ∀ outs, reprint_to_a4 [((5 : ℚ), 0)] 10 true true ≠ .ok outs := by
  refine ⟨by decide, fun outs h => ?_⟩
  rw [show reprint_to_a4 [((5 : ℚ), 0)] 10 true true = .error .zeroDivisionError
    from by decide] at h
  exact Except.noConfusion h

/-- C10 (amended): for every input whose pages all have nonzero width
and height, `reprint_to_a4` produces exactly one A4-sized output page
per source page, in original order, the i-th output page rendering the
i-th source page with its computed plan. -/
theorem reprint_c10_amended (pages : List (ℚ × ℚ)) (m : ℚ) (so rl : Bool)
    (h : ∀ pg ∈ pages, pg.1 ≠ 0 ∧ pg.2 ≠ 0) :
    ∃ outs, reprint_to_a4 pages m so rl = .ok outs ∧
      outs.length = pages.length ∧
      ∀ i (hi : i < outs.length) (hp : i < pages.length),
        ∃ pl, plan_page (pages.get ⟨i, hp⟩).1 (pages.get ⟨i, hp⟩).2
            a4W a4H (mm_to_pt m) so rl = .ok pl ∧
          outs.get ⟨i, hi⟩ =
            { pageW := a4W, pageH := a4H, srcW := (pages.get ⟨i, hp⟩).1,
              srcH := (pages.get ⟨i, hp⟩).2, plan := pl } := by
  induction pages with
  | nil =>
    exact ⟨[], rfl, rfl, fun i hi hp => absurd hp (Nat.not_lt_zero i)⟩
  | cons pg rest ih =>
    obtain ⟨hw, hh⟩ := h pg (List.mem_cons_self pg rest)
    obtain ⟨pl, hpl⟩ := plan_page_ok_of_ne pg.1 pg.2 a4W a4H (mm_to_pt m) so rl hw hh
    obtain ⟨outs, ho, hlen, hidx⟩ := ih (fun x hx => h x (List.mem_cons_of_mem _ hx))
    refine ⟨{ pageW := a4W, pageH := a4H, srcW := pg.1, srcH := pg.2, plan := pl } :: outs,
      ?_, by simp [hlen], ?_⟩
    · simp only [reprint_to_a4] at ho ⊢
      rw [List.mapM_cons, hpl, ho]
      rfl
    · intro i hi hp
      cases i with
      | zero => exact ⟨pl, hpl, rfl⟩
      | succ n =>
        exact hidx n (Nat.lt_of_succ_lt_succ hi) (Nat.lt_of_succ_lt_succ hp)

/-- C10 amended witness: two well-formed pages yield exactly two output
pages. -/
theorem reprint_c10_amended_witness :
    ∃ outs, reprint_to_a4 [((100 : ℚ), 200), ((842 : ℚ), 595)] 10 true true = .ok outs ∧
      outs.length = 2 := by
  obtain ⟨outs, h1, h2, -⟩ :=
    reprint_c10_amended [((100 : ℚ), 200), ((842 : ℚ), 595)] 10 true true (by decide)
  exact ⟨outs, h1, by simpa using h2⟩


/-- Whether an outcome records an exception escaping the per-pair
`except (IOError, ValueError)` clause (which aborts the whole batch). -/
def isAborted : PairOutcome → Bool
  | .abortedExtract _ _ => true
  | .abortedConv _ _ _ => true
  | .abortedRef _ _ _ _ => true
  | _ => false

/-- Whether the conversion step succeeded for this outcome (the temp
file was registered in `temp_files` exactly in these cases). -/
def convSucceeded : PairOutcome → Bool
  | .refFailCaught _ _ _ _ => true
  | .merged _ _ _ _ => true
  | .abortedRef _ _ _ _ => true
  | _ => false

/-- Folding a list of outcomes into the state. -/
def pushList (st : MState) (entries : List PairOutcome) : MState :=
  entries.foldl pushEntry st

lemma pushList_append (st : MState) (l₁ l₂ : List PairOutcome) :
    pushList st (l₁ ++ l₂) = pushList (pushList st l₁) l₂ := by
  simp [pushList, List.foldl_append]

lemma pushList_fields (entries : List PairOutcome) (st : MState) :
    (pushList st entries).merger = st.merger ++ (entries.map contribution).flatten ∧
      (pushList st entries).created = st.created ++ (entries.map tempOf).flatten ∧
      (pushList st entries).tempFiles = st.tempFiles ++ (entries.map keptTemp).flatten ∧
      (pushList st entries).trace = st.trace ++ entries := by
  induction entries generalizing st with
  | nil => simp [pushList]
  | cons en rest ih =>
    have h := ih (pushEntry st en)
    refine ⟨?_, ?_, ?_, ?_⟩
    · show (pushList (pushEntry st en) rest).merger = _
      rw [h.1]
      simp [pushEntry, List.append_assoc]
    · show (pushList (pushEntry st en) rest).created = _
      rw [h.2.1]
      simp [pushEntry, List.append_assoc]
    · show (pushList (pushEntry st en) rest).tempFiles = _
      rw [h.2.2.1]
      simp [pushEntry, List.append_assoc]
    · show (pushList (pushEntry st en) rest).trace = _
      rw [h.2.2.2]
      simp [pushEntry, List.append_assoc]

lemma mergeStep_shape (pats : List RePattern) (idx : List (String × PdfFile))
    (gw : String → Except PyExc (List Nat)) (st : MState) (docx : String) :
    (∃ en, mergeStep pats idx gw st docx = .ok (pushEntry st en) ∧ isAborted en = false) ∨
      (∃ e en, mergeStep pats idx gw st docx = .error (e, pushEntry st en)) := by
  cases hx : extract_base_id docx pats with
  | error e => exact .inr ⟨e, .abortedExtract docx e, by simp [mergeStep, hx]⟩
  | ok id? =>
    cases id? with
    | none => exact .inl ⟨.noId docx, by simp [mergeStep, hx], rfl⟩
    | some id =>
      by_cases hid : id = ""
      · exact .inl ⟨.noId docx, by simp [mergeStep, hx, hid], rfl⟩
      · cases hg : dictGet idx id with
        | none => exact .inl ⟨.noPdf docx id, by simp [mergeStep, hx, hid, hg], rfl⟩
        | some pdf =>
          cases hc : gw docx with
          | error e =>
            by_cases hca : caughtByMergeLoop e = true
            · exact .inl ⟨.convFailCaught docx st.nextTemp e,
                by simp [mergeStep, hx, hid, hg, hc, hca], rfl⟩
            · exact .inr ⟨e, .abortedConv docx st.nextTemp e,
                by simp [mergeStep, hx, hid, hg, hc, hca]⟩
          | ok dpages =>
            cases hr : pdf.content with
            | error e =>
              by_cases hca : caughtByMergeLoop e = true
              · exact .inl ⟨.refFailCaught docx st.nextTemp dpages e,
                  by simp [mergeStep, hx, hid, hg, hc, hr, hca], rfl⟩
              · exact .inr ⟨e, .abortedRef docx st.nextTemp dpages e,
                  by simp [mergeStep, hx, hid, hg, hc, hr, hca]⟩
            | ok rpages =>
              exact .inl ⟨.merged docx st.nextTemp dpages rpages,
                by simp [mergeStep, hx, hid, hg, hc, hr], rfl⟩

lemma mergeLoop_shape (pats : List RePattern) (idx : List (String × PdfFile))
    (gw : String → Except PyExc (List Nat)) :
    ∀ (docxs : List String) (st : MState),
      (∃ entries, mergeLoop pats idx gw docxs st = .ok (pushList st entries) ∧
          ∀ en ∈ entries, isAborted en = false) ∨
        (∃ e entries, mergeLoop pats idx gw docxs st = .error (e, pushList st entries))
  | [], st => .inl ⟨[], rfl, by simp⟩
  | docx :: rest, st => by
    rcases mergeStep_shape pats idx gw st docx with ⟨en, hstep, hab⟩ | ⟨e, en, hstep⟩
    · rcases mergeLoop_shape pats idx gw rest (pushEntry st en) with
        ⟨entries, hloop, habs⟩ | ⟨e, entries, hloop⟩
      · refine .inl ⟨en :: entries, ?_, ?_⟩
        · simp only [mergeLoop, hstep]
          exact hloop
        · intro x hx
          rcases List.mem_cons.mp hx with h | h
          · rw [h]; exact hab
          · exact habs x h
      · refine .inr ⟨e, en :: entries, ?_⟩
        simp only [mergeLoop, hstep]
        exact hloop
    · refine .inr ⟨e, [en], ?_⟩
      simp only [mergeLoop, hstep]
      rfl

lemma mergeDirs_shape (pats : List RePattern) (idx : List (String × PdfFile))
    (gw : String → Except PyExc (List Nat)) :
    ∀ (dirs : List Directory) (st : MState),
      (∃ entries, mergeDirs pats idx gw dirs st = .ok (pushList st entries) ∧
          ∀ en ∈ entries, isAborted en = false) ∨
        (∃ e entries, mergeDirs pats idx gw dirs st = .error (e, pushList st entries))
  | [], st => .inl ⟨[], rfl, by simp⟩
  | dir :: rest, st => by
    rcases mergeLoop_shape pats idx gw dir.docxFiles st with
      ⟨entries₁, hloop, habs₁⟩ | ⟨e, entries₁, hloop⟩
    · rcases mergeDirs_shape pats idx gw rest (pushList st entries₁) with
        ⟨entries₂, hdirs, habs₂⟩ | ⟨e, entries₂, hdirs⟩
      · refine .inl ⟨entries₁ ++ entries₂, ?_, ?_⟩
        · simp only [mergeDirs, hloop]
          rw [pushList_append]
          exact hdirs
        · intro x hx
          rcases List.mem_append.mp hx with h | h
          · exact habs₁ x h
          · exact habs₂ x h
      · refine .inr ⟨e, entries₁ ++ entries₂, ?_⟩
        simp only [mergeDirs, hloop]
        rw [pushList_append]
        exact hdirs
    · refine .inr ⟨e, entries₁, ?_⟩
      simp only [mergeDirs, hloop]

lemma merge_docx_pdf_char (cfg : Config) (gw : String → Except PyExc (List Nat)) :
    (merge_docx_pdf cfg gw).created = ((merge_docx_pdf cfg gw).trace.map tempOf).flatten ∧
      (merge_docx_pdf cfg gw).deleted = ((merge_docx_pdf cfg gw).trace.map keptTemp).flatten ∧
      ∀ ps, (merge_docx_pdf cfg gw).written = some ps →
        ps = ((merge_docx_pdf cfg gw).trace.map contribution).flatten ∧
          ∀ en ∈ (merge_docx_pdf cfg gw).trace, isAborted en = false := by
  unfold merge_docx_pdf
  cases hv : validate_docx_pdf_pairs cfg with
  | error e =>
    refine ⟨rfl, rfl, fun ps hps => ?_⟩
    cases hps
  | ok pr =>
    obtain ⟨idx, events⟩ := pr
    rcases mergeDirs_shape cfg.regex_pattern idx gw cfg.output_dirs ⟨[], [], [], 0, [], 0⟩ with
      ⟨entries, hdirs, habs⟩ | ⟨e, entries, hdirs⟩
    · simp only [hdirs]
      obtain ⟨h1, h2, h3, h4⟩ := pushList_fields entries ⟨[], [], [], 0, [], 0⟩
      refine ⟨?_, ?_, ?_⟩
      · show (pushList ⟨[], [], [], 0, [], 0⟩ entries).created =
          ((pushList ⟨[], [], [], 0, [], 0⟩ entries).trace.map tempOf).flatten
        rw [h2, h4]
        simp
      · show (pushList ⟨[], [], [], 0, [], 0⟩ entries).tempFiles =
          ((pushList ⟨[], [], [], 0, [], 0⟩ entries).trace.map keptTemp).flatten
        rw [h3, h4]
        simp
      · intro ps hps
        have hps' : ps = (pushList ⟨[], [], [], 0, [], 0⟩ entries).merger := by
          by_cases hap : (pushList ⟨[], [], [], 0, [], 0⟩ entries).appended > 0
          · rw [if_pos hap] at hps
            exact (Option.some.inj hps).symm
          · rw [if_neg hap] at hps
            cases hps
        constructor
        · show ps = ((pushList ⟨[], [], [], 0, [], 0⟩ entries).trace.map contribution).flatten
          rw [hps', h1, h4]
          simp
        · intro en hen
          apply habs
          rw [h4] at hen
          simpa using hen
    · simp only [hdirs]
      obtain ⟨h1, h2, h3, h4⟩ := pushList_fields entries ⟨[], [], [], 0, [], 0⟩
      refine ⟨?_, ?_, fun ps hps => ?_⟩
      · show (pushList ⟨[], [], [], 0, [], 0⟩ entries).created =
          ((pushList ⟨[], [], [], 0, [], 0⟩ entries).trace.map tempOf).flatten
        rw [h2, h4]
        simp
      · show (pushList ⟨[], [], [], 0, [], 0⟩ entries).tempFiles =
          ((pushList ⟨[], [], [], 0, [], 0⟩ entries).trace.map keptTemp).flatten
        rw [h3, h4]
        simp
      · cases hps

/-- C3: every pair that merges successfully occupies a contiguous
segment of the combined output: all its converted-document pages, in
order, immediately followed by all its reference-PDF pages, in order. -/
theorem merge_c3_pair_segment (cfg : Config) (gw : String → Except PyExc (List Nat))
    (docx : String) (t : Nat) (d r ps : List Nat)
    (hw : (merge_docx_pdf cfg gw).written = some ps)
    (hm : PairOutcome.merged docx t d r ∈ (merge_docx_pdf cfg gw).trace) :
    ∃ pre post, ps = pre ++ (d ++ r) ++ post := by
  obtain ⟨-, -, h3⟩ := merge_docx_pdf_char cfg gw
  obtain ⟨hps, -⟩ := h3 ps hw
  obtain ⟨l1, l2, hsplit⟩ := List.append_of_mem hm
  refine ⟨(l1.map contribution).flatten, (l2.map contribution).flatten, ?_⟩
  rw [hps, hsplit]
  simp [contribution, List.append_assoc]

/-- Configuration for the C3 witness: one docx `A` with one reference
pdf `A` holding pages `[3, 4]`. -/
def cfg3 : Config := ⟨[⟨["A"], [⟨"A", .ok [3, 4]⟩]⟩], [reAny]⟩

/-- Gateway for the C3 witness: converting `A` yields pages `[1, 2]`. -/
def gw3 : String → Except PyExc (List Nat) :=
  fun d => if d = "A" then .ok [1, 2] else .error .runtimeError

/-- C3 witness: in a concrete run the merged pair's segment is the
converted pages followed by the reference pages. -/
theorem merge_c3_pair_segment_witness :
    ∃ pre post, ([1, 2, 3, 4] : List Nat) = pre ++ ([1, 2] ++ [3, 4]) ++ post :=
  merge_c3_pair_segment cfg3 gw3 "A" 0 [1, 2] [3, 4] [1, 2, 3, 4] (by decide) (by decide)

/-- Configuration for the C4 counterexample: docx `A` and `B` with
reference pdfs `A` (pages `[3, 4]`) and `B` (whose read raises an
`IOError`, e.g. the file was deleted between validation and merging). -/
def cfg4 : Config := ⟨[⟨["A", "B"], [⟨"A", .ok [3, 4]⟩, ⟨"B", .error .ioError⟩]⟩], [reAny]⟩

/-- Gateway for the C4 counterexample: both conversions succeed. -/
def gw4 : String → Except PyExc (List Nat) :=
  fun d => if d = "A" then .ok [1, 2] else .ok [5]

/-- C4 (counterexample): pair `B`'s converted page `[5]` was appended
before `merger.append(str(pdf_file))` raised the caught `IOError`, so
the written output `[1, 2, 3, 4, 5]` represents pair `B` partially: its
converted pages are present, its reference pages absent. -/
theorem merge_c4_counterexample :
    (merge_docx_pdf cfg4 gw4).written = some [1, 2, 3, 4, 5] ∧
      PairOutcome.refFailCaught "B" 1 [5] .ioError ∈ (merge_docx_pdf cfg4 gw4).trace ∧
      PairOutcome.merged "A" 0 [1, 2] [3, 4] ∈ (merge_docx_pdf cfg4 gw4).trace :=
  ⟨by decide, by decide, by decide⟩

/-- C4 (amended): the written output is exactly the concatenation of
the per-pair contributions, where each pair contributes either both its
full page sets (merged), or nothing, or — when appending the reference
pdf raised a caught exception after the converted pdf was appended —
exactly its full converted page set. -/
theorem merge_c4_amended (cfg : Config) (gw : String → Except PyExc (List Nat)) (ps : List Nat)
    (hw : (merge_docx_pdf cfg gw).written = some ps) :
    ps = ((merge_docx_pdf cfg gw).trace.map contribution).flatten ∧
      ∀ en ∈ (merge_docx_pdf cfg gw).trace,
        contribution en = [] ∨
          (∃ dx t dp rp, en = .merged dx t dp rp ∧ contribution en = dp ++ rp) ∨
          (∃ dx t dp e, en = .refFailCaught dx t dp e ∧ contribution en = dp) := by
  obtain ⟨-, -, h3⟩ := merge_docx_pdf_char cfg gw
  obtain ⟨hps, habs⟩ := h3 ps hw
  refine ⟨hps, fun en hen => ?_⟩
  have hab := habs en hen
  cases en with
  | noId d => exact .inl rfl
  | noPdf d i => exact .inl rfl
  | convFailCaught d t e => exact .inl rfl
  | refFailCaught d t dp e => exact .inr (.inr ⟨d, t, dp, e, rfl, rfl⟩)
  | merged d t dp rp => exact .inr (.inl ⟨d, t, dp, rp, rfl, rfl⟩)
  | abortedExtract d e => exact absurd hab (by simp [isAborted])
  | abortedConv d t e => exact absurd hab (by simp [isAborted])
  | abortedRef d t dp e => exact absurd hab (by simp [isAborted])

/-- Configuration for the C4 amended witness: one successful pair. -/
def cfg4w : Config := ⟨[⟨["C"], [⟨"C", .ok [7]⟩]⟩], [reAny]⟩

/-- Gateway for the C4 amended witness. -/
def gw4w : String → Except PyExc (List Nat) := fun _ => .ok [6]

/-- C4 amended witness: the concrete output equals the concatenated
contributions. -/
theorem merge_c4_amended_witness :
    ([6, 7] : List Nat) = (((merge_docx_pdf cfg4w gw4w).trace.map contribution)).flatten :=
  (merge_c4_amended cfg4w gw4w [6, 7] (by decide)).1

/-- Configuration for the C5 counterexample: two docx files `A`, `B`,
each with its own reference pdf. -/
def cfg5 : Config := ⟨[⟨["A", "B"], [⟨"A", .ok [3]⟩, ⟨"B", .ok [4]⟩]⟩], [reAny]⟩

/-- Gateway for the C5 counterexample: converting `A` raises
`RuntimeError` (as `convert_docx_to_pdf` does off Windows or when Word
fails to start); converting `B` would succeed. -/
def gwC5 : String → Except PyExc (List Nat) :=
  fun d => if d = "A" then .error .runtimeError else .ok [1]

/-- C5 (counterexample): the conversion failure for pair `A` is a
`RuntimeError`, which `except (IOError, ValueError)` does not catch: the
exception escapes `merge_docx_pdf`, no output is written, and the
perfectly mergeable pair `B` is never processed — one conversion failure
aborted the whole batch. -/
theorem merge_c5_counterexample :
    (merge_docx_pdf cfg5 gwC5).raised = some .runtimeError ∧
      (merge_docx_pdf cfg5 gwC5).written = none ∧
      (merge_docx_pdf cfg5 gwC5).trace = [.abortedConv "A" 0 .runtimeError] ∧
      ∀ t dp rp, PairOutcome.merged "B" t dp rp ∉ (merge_docx_pdf cfg5 gwC5).trace := by
  refine ⟨by decide, by decide, by decide, ?_⟩
  intro t dp rp hmem
  rw [show (merge_docx_pdf cfg5 gwC5).trace = [.abortedConv "A" 0 .runtimeError]
    from by decide] at hmem
  simp at hmem

/-- C5 (amended): only conversion failures of class `IOError` or
`ValueError` are caught by the per-pair handler (the pair is skipped and
the batch continues with the next docx); a conversion failure of any
other class — in particular the `RuntimeError`, `AttributeError` and
`pywintypes.com_error` that `convert_docx_to_pdf` actually raises —
propagates and aborts the batch, leaving the remaining pairs
unprocessed. -/
theorem merge_c5_amended (pats : List RePattern) (idx : List (String × PdfFile))
    (gw : String → Except PyExc (List Nat)) (st : MState) (docx : String)
    (rest : List String) (id : String) (pdf : PdfFile) (e : PyExc)
    (hx : extract_base_id docx pats = .ok (some id)) (hid : id ≠ "")
    (hg : dictGet idx id = some pdf) (hc : gw docx = .error e) :
    (caughtByMergeLoop e = true →
        mergeLoop pats idx gw (docx :: rest) st =
          mergeLoop pats idx gw rest (pushEntry st (.convFailCaught docx st.nextTemp e))) ∧
      (caughtByMergeLoop e = false →
        mergeLoop pats idx gw (docx :: rest) st =
          .error (e, pushEntry st (.abortedConv docx st.nextTemp e))) := by
  constructor
  · intro hca
    simp [mergeLoop, mergeStep, hx, hid, hg, hc, hca]
  · intro hca
    simp [mergeLoop, mergeStep, hx, hid, hg, hc, hca]

/-- Index for the C5 amended witness. -/
def idx5 : List (String × PdfFile) := [("A", ⟨"A", .ok [9]⟩)]

/-- Gateway for the C5 amended witness: every conversion raises
`RuntimeError`. -/
def gw5 : String → Except PyExc (List Nat) := fun _ => .error .runtimeError

/-- The initial merge-loop state. -/
def st0 : MState := ⟨[], [], [], 0, [], 0⟩

/-- C5 amended witness: with an uncaught conversion failure on `A`, the
loop stops with the exception and `B` is left unprocessed. -/
theorem merge_c5_amended_witness :
    mergeLoop [reAny] idx5 gw5 ["A", "B"] st0 =
      .error (.runtimeError, pushEntry st0 (.abortedConv "A" 0 .runtimeError)) :=
  (merge_c5_amended [reAny] idx5 gw5 st0 "A" ["B"] "A" ⟨"A", .ok [9]⟩ .runtimeError
    (by decide) (by decide) (by decide) rfl).2 (by decide)

/-- Configuration for the C6 counterexample: one docx `D` with its
reference pdf. -/
def cfg6 : Config := ⟨[⟨["D"], [⟨"D", .ok [8]⟩]⟩], [reAny]⟩

/-- Gateway for the C6 counterexample: the conversion raises. -/
def gw6 : String → Except PyExc (List Nat) := fun _ => .error .runtimeError

/-- C6 (counterexample): the temporary pdf (temp file 0) is created by
`NamedTemporaryFile(delete=False)` before `convert_docx_to_pdf` runs,
but it is appended to `temp_files` only after the conversion returns; in
this run the conversion raises, so the created temp file is never
registered and the `finally` cleanup deletes nothing — the temp file
leaks. -/
theorem merge_c6_counterexample :
    0 ∈ (merge_docx_pdf cfg6 gw6).created ∧
      (merge_docx_pdf cfg6 gw6).deleted = [] ∧
      (0 : Nat) ∉ (merge_docx_pdf cfg6 gw6).deleted :=
  ⟨by decide, by decide, by decide⟩

/-- C6 (amended): the `finally` block deletes exactly the temp files
registered in `temp_files`, and a temp file is registered exactly when
its pair's conversion step returned successfully — so temp files whose
conversion raised (caught or not) are created but never deleted. -/
theorem merge_c6_amended (cfg : Config) (gw : String → Except PyExc (List Nat)) :
    (merge_docx_pdf cfg gw).deleted = ((merge_docx_pdf cfg gw).trace.map keptTemp).flatten ∧
      (merge_docx_pdf cfg gw).created = ((merge_docx_pdf cfg gw).trace.map tempOf).flatten ∧
      ∀ en, keptTemp en = if convSucceeded en = true then tempOf en else [] := by
  obtain ⟨h1, h2, -⟩ := merge_docx_pdf_char cfg gw
  refine ⟨h2, h1, fun en => ?_⟩
  cases en <;> rfl

/-- Configuration for the C2 counterexample: identifier `X` has one
reference pdf in EACH of the two configured directories (pages `[10]`
and `[20]`), and each directory also has a docx `X`; identifier `Y` has
exactly one reference pdf but no docx anywhere. -/
def cfgC2 : Config :=
  ⟨[⟨["X"], [⟨"X", .ok [10]⟩, ⟨"Y", .ok [30]⟩]⟩,
    ⟨["X"], [⟨"X", .ok [20]⟩]⟩], [reAny]⟩

/-- C2 (counterexample): identifier `X` has two reference pdfs across
the configured directories, yet no `Ambiguous reference` anomaly is
reported (the pdf map is rebuilt per directory) and the returned index
silently maps `X` to the second directory's pdf, overwriting the first;
and identifier `Y`, with exactly one reference pdf, is absent from the
index because no docx carries it. -/
theorem validate_c2_counterexample :
    validate_docx_pdf_pairs cfgC2 =
        .ok ([("X", ⟨"X", .ok [20]⟩)], [.matched "X" "X", .matched "X" "X"]) ∧
      dictGet [("X", (⟨"X", .ok [20]⟩ : PdfFile))] "X" = some ⟨"X", .ok [20]⟩ ∧
      (([VEvent.matched "X" "X", .matched "X" "X"].all fun ev => !ev.isMultiplePdf) = true) ∧
      dictGet [("X", (⟨"X", .ok [20]⟩ : PdfFile))] "Y" = none :=
  ⟨by decide, by decide, by decide, by decide⟩

/-- Whether `extract_base_id` extracts exactly the (truthy) identifier
`id` from the stem. -/
def extractsToB (pats : List RePattern) (stem id : String) : Bool :=
  match extract_base_id stem pats with
  | .ok (some s) => !(s == "") && s == id
  | _ => false

/-- The reference pdfs of a directory carrying the identifier `id`. -/
def pdfsFor (pats : List RePattern) (pdfs : List PdfFile) (id : String) : List PdfFile :=
  pdfs.filter (fun p => extractsToB pats p.stem id)

/-- Whether an `Except` holds a success. -/
def exIsOk {α : Type} : Except PyExc α → Bool
  | .ok _ => true
  | .error _ => false

lemma extractsToB_true_iff (pats : List RePattern) (stem id : String) :
    extractsToB pats stem id = true ↔
      extract_base_id stem pats = .ok (some id) ∧ id ≠ "" := by
  unfold extractsToB
  cases hx : extract_base_id stem pats with
  | error e => simp
  | ok o =>
    cases o with
    | none => simp
    | some s =>
      constructor
      · intro h
        have h' : s ≠ "" ∧ s = id := by simpa using h
        obtain ⟨h1, h2⟩ := h'
        subst h2
        exact ⟨rfl, h1⟩
      · rintro ⟨h1, h2⟩
        have : s = id := Option.some.inj (Except.ok.inj h1)
        subst this
        simp [h2]

lemma dictGet_set_self {α : Type} (d : List (String × α)) (k : String) (v : α) :
    dictGet (dictSet d k v) k = some v := by
  induction d with
  | nil => simp [dictSet, dictGet]
  | cons kv rest ih =>
    obtain ⟨k0, w⟩ := kv
    by_cases h : k0 = k
    · simp [dictSet, dictGet, h]
    · simp [dictSet, dictGet, h, ih]

lemma dictGet_set_ne {α : Type} (d : List (String × α)) (k k' : String) (v : α)
    (h : k ≠ k') : dictGet (dictSet d k v) k' = dictGet d k' := by
  induction d with
  | nil => simp [dictSet, dictGet, h]
  | cons kv rest ih =>
    obtain ⟨k0, w⟩ := kv
    by_cases h0 : k0 = k
    · subst h0
      simp [dictSet, dictGet, h]
    · simp [dictSet, dictGet, h0, ih]

lemma pdfMapGet_insert_self (m : List (String × List PdfFile)) (id : String) (p : PdfFile) :
    pdfMapGet (pdfMapInsert m id p) id = pdfMapGet m id ++ [p] := by
  induction m with
  | nil => simp [pdfMapInsert, pdfMapGet, dictGet]
  | cons kv rest ih =>
    obtain ⟨k, ps⟩ := kv
    by_cases h : k = id
    · simp [pdfMapInsert, pdfMapGet, dictGet, h]
    · simp only [pdfMapGet] at ih
      simp [pdfMapInsert, pdfMapGet, dictGet, h, ih]

lemma pdfMapGet_insert_ne (m : List (String × List PdfFile)) (id id' : String) (p : PdfFile)
    (h : id ≠ id') : pdfMapGet (pdfMapInsert m id p) id' = pdfMapGet m id' := by
  induction m with
  | nil => simp [pdfMapInsert, pdfMapGet, dictGet, h]
  | cons kv rest ih =>
    obtain ⟨k, ps⟩ := kv
    by_cases h0 : k = id
    · subst h0
      simp [pdfMapInsert, pdfMapGet, dictGet, h]
    · simp only [pdfMapGet] at ih
      by_cases hk : k = id'
      · simp [pdfMapInsert, pdfMapGet, dictGet, h0, hk, h.symm]
      · simp [pdfMapInsert, pdfMapGet, dictGet, h0, hk, ih]

lemma buildPdfMap_char (pats : List RePattern) :
    ∀ (pdfs : List PdfFile) (acc : List (String × List PdfFile)),
      (∀ p ∈ pdfs, exIsOk (extract_base_id p.stem pats) = true) →
      ∃ m, buildPdfMap pats pdfs acc = .ok m ∧
        ∀ id, pdfMapGet m id = pdfMapGet acc id ++ pdfsFor pats pdfs id
  | [], acc, _ => ⟨acc, rfl, by simp [pdfsFor]⟩
  | p :: rest, acc, h => by
    have hrest : ∀ q ∈ rest, exIsOk (extract_base_id q.stem pats) = true :=
      fun q hq => h q (List.mem_cons_of_mem _ hq)
    cases hx : extract_base_id p.stem pats with
    | error e =>
      have hp := h p (List.mem_cons_self p rest)
      rw [hx] at hp
      exact absurd hp (by simp [exIsOk])
    | ok id? =>
      cases id? with
      | none =>
        obtain ⟨m, hm, hget⟩ := buildPdfMap_char pats rest acc hrest
        refine ⟨m, by simp [buildPdfMap, hx, hm], fun id => ?_⟩
        rw [hget]
        have hfalse : extractsToB pats p.stem id = false := by simp [extractsToB, hx]
        simp [pdfsFor, List.filter_cons, hfalse]
      | some s =>
        by_cases hs : s = ""
        · subst hs
          obtain ⟨m, hm, hget⟩ := buildPdfMap_char pats rest acc hrest
          refine ⟨m, by simp [buildPdfMap, hx, hm], fun id => ?_⟩
          rw [hget]
          have hfalse : extractsToB pats p.stem id = false := by simp [extractsToB, hx]
          simp [pdfsFor, List.filter_cons, hfalse]
        · obtain ⟨m, hm, hget⟩ := buildPdfMap_char pats rest (pdfMapInsert acc s p) hrest
          refine ⟨m, by simp [buildPdfMap, hx, hs, hm], fun id => ?_⟩
          rw [hget]
          by_cases hid : s = id
          · subst hid
            rw [pdfMapGet_insert_self]
            have htrue : extractsToB pats p.stem s = true := by simp [extractsToB, hx, hs]
            simp [pdfsFor, List.filter_cons, htrue]
          · rw [pdfMapGet_insert_ne acc s id p hid]
            have hfalse : extractsToB pats p.stem id = false := by
              simp [extractsToB, hx, hid]
            simp [pdfsFor, List.filter_cons, hfalse]

lemma validateDirLoop_char (pats : List RePattern) (pmap : List (String × List PdfFile))
    (docxs : List String) :
    ∀ (idx : List (String × PdfFile)) (evs : List VEvent),
      (∀ d ∈ docxs, exIsOk (extract_base_id d pats) = true) →
      ∃ idx' evs', validateDirLoop pats pmap docxs idx evs = .ok (idx', evs') ∧
        (∃ added, evs' = evs ++ added) ∧
        ∀ id,
          (2 ≤ (pdfMapGet pmap id).length →
            dictGet idx' id = dictGet idx id ∧
            ∀ docx ∈ docxs, extractsToB pats docx id = true →
              VEvent.multiplePdf docx id ∈ evs') ∧
          (∀ p, pdfMapGet pmap id = [p] →
            ((∃ docx ∈ docxs, extractsToB pats docx id = true) → dictGet idx' id = some p) ∧
            ((∀ docx ∈ docxs, extractsToB pats docx id = false) →
              dictGet idx' id = dictGet idx id)) ∧
          (pdfMapGet pmap id = [] → dictGet idx' id = dictGet idx id) := by
  induction docxs with
  | nil =>
    intro idx evs _
    exact ⟨idx, evs, rfl, ⟨[], by simp⟩, fun id =>
      ⟨fun _ => ⟨rfl, fun docx hd => absurd hd (List.not_mem_nil docx)⟩,
       fun p _ => ⟨fun ⟨docx, hd, _⟩ => absurd hd (List.not_mem_nil docx), fun _ => rfl⟩,
       fun _ => rfl⟩⟩
  | cons docx rest ih =>
    intro idx evs h
    have hrest : ∀ d ∈ rest, exIsOk (extract_base_id d pats) = true :=
      fun d hd => h d (List.mem_cons_of_mem _ hd)
    cases hx : extract_base_id docx pats with
    | error e =>
      have hd := h docx (List.mem_cons_self docx rest)
      rw [hx] at hd
      exact absurd hd (by simp [exIsOk])
    | ok id? =>
      cases id? with
      | none =>
        have hfalse : ∀ id, extractsToB pats docx id = false :=
          fun id => by simp [extractsToB, hx]
        obtain ⟨idx', evs', hloop, ⟨added, hadd⟩, hmain⟩ :=
          ih idx (evs ++ [.noId docx]) hrest
        refine ⟨idx', evs', by simp [validateDirLoop, hx, hloop],
          ⟨.noId docx :: added, by simp [hadd]⟩, fun id => ?_⟩
        obtain ⟨hA, hB, hC⟩ := hmain id
        refine ⟨fun hlen => ⟨(hA hlen).1, fun dx hdx hex => ?_⟩,
          fun p hp => ⟨fun hex => ?_, fun hall => ?_⟩, hC⟩
        · rcases List.mem_cons.mp hdx with rfl | hdx'
          · rw [hfalse id] at hex
            exact absurd hex (by simp)
          · exact (hA hlen).2 dx hdx' hex
        · obtain ⟨dx, hdx, hex⟩ := hex
          rcases List.mem_cons.mp hdx with rfl | hdx'
          · rw [hfalse id] at hex
            exact absurd hex (by simp)
          · exact (hB p hp).1 ⟨dx, hdx', hex⟩
        · exact (hB p hp).2 (fun dx hdx => hall dx (List.mem_cons_of_mem _ hdx))
      | some s =>
        by_cases hs : s = ""
        · subst hs
          have hfalse : ∀ id, extractsToB pats docx id = false :=
            fun id => by simp [extractsToB, hx]
          obtain ⟨idx', evs', hloop, ⟨added, hadd⟩, hmain⟩ :=
            ih idx (evs ++ [.noId docx]) hrest
          refine ⟨idx', evs', by simp [validateDirLoop, hx, hloop],
            ⟨.noId docx :: added, by simp [hadd]⟩, fun id => ?_⟩
          obtain ⟨hA, hB, hC⟩ := hmain id
          refine ⟨fun hlen => ⟨(hA hlen).1, fun dx hdx hex => ?_⟩,
            fun p hp => ⟨fun hex => ?_, fun hall => ?_⟩, hC⟩
          · rcases List.mem_cons.mp hdx with rfl | hdx'
            · rw [hfalse id] at hex
              exact absurd hex (by simp)
            · exact (hA hlen).2 dx hdx' hex
          · obtain ⟨dx, hdx, hex⟩ := hex
            rcases List.mem_cons.mp hdx with rfl | hdx'
            · rw [hfalse id] at hex
              exact absurd hex (by simp)
            · exact (hB p hp).1 ⟨dx, hdx', hex⟩
          · exact (hB p hp).2 (fun dx hdx => hall dx (List.mem_cons_of_mem _ hdx))
        · have hex_iff : ∀ id, extractsToB pats docx id = true ↔ id = s := by
            intro id
            rw [extractsToB_true_iff]
            constructor
            · rintro ⟨h1, -⟩
              have := hx.symm.trans h1
              exact (Option.some.inj (Except.ok.inj this)).symm
            · rintro rfl
              exact ⟨hx, hs⟩
          cases hmap : pdfMapGet pmap s with
          | nil =>
            obtain ⟨idx', evs', hloop, ⟨added, hadd⟩, hmain⟩ :=
              ih idx (evs ++ [.missingPdf docx s]) hrest
            refine ⟨idx', evs', by simp [validateDirLoop, hx, hs, hmap, hloop],
              ⟨.missingPdf docx s :: added, by simp [hadd]⟩, fun id => ?_⟩
            obtain ⟨hA, hB, hC⟩ := hmain id
            refine ⟨fun hlen => ⟨(hA hlen).1, fun dx hdx hex => ?_⟩,
              fun p hp => ⟨fun hex => ?_, fun hall => ?_⟩, hC⟩
            · rcases List.mem_cons.mp hdx with rfl | hdx'
              · have hids : id = s := (hex_iff id).mp hex
                subst hids
                rw [hmap] at hlen
                exact absurd hlen (by norm_num)
              · exact (hA hlen).2 dx hdx' hex
            · obtain ⟨dx, hdx, hex⟩ := hex
              rcases List.mem_cons.mp hdx with rfl | hdx'
              · have hids : id = s := (hex_iff id).mp hex
                subst hids
                rw [hmap] at hp
                exact absurd hp (by simp)
              · exact (hB p hp).1 ⟨dx, hdx', hex⟩
            · exact (hB p hp).2 (fun dx hdx => hall dx (List.mem_cons_of_mem _ hdx))
          | cons p0 ptail =>
            cases ptail with
            | nil =>
              obtain ⟨idx', evs', hloop, ⟨added, hadd⟩, hmain⟩ :=
                ih (dictSet idx s p0) (evs ++ [.matched docx s]) hrest
              refine ⟨idx', evs', by simp [validateDirLoop, hx, hs, hmap, hloop],
                ⟨.matched docx s :: added, by simp [hadd]⟩, fun id => ?_⟩
              obtain ⟨hA, hB, hC⟩ := hmain id
              by_cases hid : id = s
              · subst hid
                refine ⟨fun hlen => ?_, fun p hp => ⟨fun _ => ?_, fun hall => ?_⟩,
                  fun hzero => ?_⟩
                · rw [hmap] at hlen
                  exact absurd hlen (by norm_num)
                · have hpp : p0 = p := by
                    have h2 := hmap.symm.trans hp
                    injection h2
                  by_cases hrex : ∃ dx ∈ rest, extractsToB pats dx id = true
                  · exact (hB p hp).1 hrex
                  · have hallrest : ∀ dx ∈ rest, extractsToB pats dx id = false := by
                      intro dx hdx
                      cases hbb : extractsToB pats dx id with
                      | false => rfl
                      | true => exact absurd ⟨dx, hdx, hbb⟩ hrex
                    have hset := (hB p hp).2 hallrest
                    rw [hset, dictGet_set_self, hpp]
                · have htrue : extractsToB pats docx id = true := (hex_iff id).mpr rfl
                  have hfalse := hall docx (List.mem_cons_self docx rest)
                  rw [htrue] at hfalse
                  exact absurd hfalse (by simp)
                · rw [hmap] at hzero
                  exact absurd hzero (by simp)
              · have hsetne : dictGet (dictSet idx s p0) id = dictGet idx id :=
                  dictGet_set_ne idx s id p0 (fun hc => hid hc.symm)
                refine ⟨fun hlen => ⟨((hA hlen).1).trans hsetne, fun dx hdx hex => ?_⟩,
                  fun p hp => ⟨fun hex => ?_, fun hall => ?_⟩,
                  fun hzero => (hC hzero).trans hsetne⟩
                · rcases List.mem_cons.mp hdx with rfl | hdx'
                  · exact absurd ((hex_iff id).mp hex) hid
                  · exact (hA hlen).2 dx hdx' hex
                · obtain ⟨dx, hdx, hex⟩ := hex
                  rcases List.mem_cons.mp hdx with rfl | hdx'
                  · exact absurd ((hex_iff id).mp hex) hid
                  · exact (hB p hp).1 ⟨dx, hdx', hex⟩
                · exact ((hB p hp).2
                    (fun dx hdx => hall dx (List.mem_cons_of_mem _ hdx))).trans hsetne
            | cons p1 ptail2 =>
              obtain ⟨idx', evs', hloop, ⟨added, hadd⟩, hmain⟩ :=
                ih idx (evs ++ [.multiplePdf docx s]) hrest
              refine ⟨idx', evs', by simp [validateDirLoop, hx, hs, hmap, hloop],
                ⟨.multiplePdf docx s :: added, by simp [hadd]⟩, fun id => ?_⟩
              obtain ⟨hA, hB, hC⟩ := hmain id
              by_cases hid : id = s
              · subst hid
                refine ⟨fun hlen => ⟨(hA hlen).1, fun dx hdx hex => ?_⟩,
                  fun p hp => absurd hp (by rw [hmap]; simp),
                  fun hzero => absurd hzero (by rw [hmap]; simp)⟩
                rcases List.mem_cons.mp hdx with rfl | hdx'
                · rw [hadd]
                  simp
                · exact (hA hlen).2 dx hdx' hex
              · refine ⟨fun hlen => ⟨(hA hlen).1, fun dx hdx hex => ?_⟩,
                  fun p hp => ⟨fun hex => ?_, fun hall => ?_⟩, hC⟩
                · rcases List.mem_cons.mp hdx with rfl | hdx'
                  · exact absurd ((hex_iff id).mp hex) hid
                  · exact (hA hlen).2 dx hdx' hex
                · obtain ⟨dx, hdx, hex⟩ := hex
                  rcases List.mem_cons.mp hdx with rfl | hdx'
                  · exact absurd ((hex_iff id).mp hex) hid
                  · exact (hB p hp).1 ⟨dx, hdx', hex⟩
                · exact (hB p hp).2 (fun dx hdx => hall dx (List.mem_cons_of_mem _ hdx))

/-- C2 (amended): duplicate detection is per directory, and an index
entry needs a matching docx.  For a SINGLE configured directory (and
extractions that raise nothing): an identifier extracted from some docx
and carried by two or more of the directory's reference pdfs is reported
(`Ambiguous reference` log line) and absent from the returned index; an
identifier carried by exactly one reference pdf and extracted from some
docx maps to exactly that pdf; an identifier extracted from no docx is
never in the index.  (Across several directories the counterexample
shows duplicates are silently resolved to the last directory's pdf.) -/
theorem validate_c2_amended (dir : Directory) (pats : List RePattern)
    (hne : pats.isEmpty = false)
    (hp : ∀ p ∈ dir.pdfFiles, exIsOk (extract_base_id p.stem pats) = true)
    (hd : ∀ d ∈ dir.docxFiles, exIsOk (extract_base_id d pats) = true) :
    ∃ idx evs, validate_docx_pdf_pairs ⟨[dir], pats⟩ = .ok (idx, evs) ∧
      (∀ id docx, docx ∈ dir.docxFiles → extractsToB pats docx id = true →
        (2 ≤ (pdfsFor pats dir.pdfFiles id).length →
          VEvent.multiplePdf docx id ∈ evs ∧ dictGet idx id = none) ∧
        (∀ p, pdfsFor pats dir.pdfFiles id = [p] → dictGet idx id = some p)) ∧
      (∀ id, (∀ docx ∈ dir.docxFiles, extractsToB pats docx id = false) →
        dictGet idx id = none) := by
  obtain ⟨m, hm, hget⟩ := buildPdfMap_char pats dir.pdfFiles [] hp
  obtain ⟨idx', evs', hloop, -, hmain⟩ := validateDirLoop_char pats m dir.docxFiles [] [] hd
  have hval : validate_docx_pdf_pairs ⟨[dir], pats⟩ = .ok (idx', evs') := by
    simp [validate_docx_pdf_pairs, hne, validateDirs, hm, hloop]
  have hget' : ∀ id, pdfMapGet m id = pdfsFor pats dir.pdfFiles id := by
    intro id
    rw [hget id]
    simp [pdfMapGet, dictGet]
  refine ⟨idx', evs', hval, ?_, ?_⟩
  · intro id docx hdocx hex
    obtain ⟨hA, hB, -⟩ := hmain id
    constructor
    · intro hlen
      rw [← hget' id] at hlen
      obtain ⟨h1, h2⟩ := hA hlen
      exact ⟨h2 docx hdocx hex, by rw [h1]; rfl⟩
    · intro p hp2
      rw [← hget' id] at hp2
      exact (hB p hp2).1 ⟨docx, hdocx, hex⟩
  · intro id hall
    obtain ⟨hA, hB, hC⟩ := hmain id
    rcases hmm : pdfMapGet m id with _ | ⟨q0, _ | ⟨q1, qt⟩⟩
    · rw [hC hmm]
      rfl
    · rw [(hB q0 hmm).2 hall]
      rfl
    · have hlen : 2 ≤ (pdfMapGet m id).length := by
        rw [hmm]
        simp [List.length_cons]
      rw [(hA hlen).1]
      rfl

/-- Directory for the C2 amended witness: docx `A` and `B`; one
reference pdf for `A`, two for `B`, none for `Z`. -/
def dirW : Directory := ⟨["A", "B"], [⟨"A", .ok [1]⟩, ⟨"B", .ok [2]⟩, ⟨"B", .ok [3]⟩]⟩

/-- C2 amended witness: in the concrete single directory, `B` is
reported ambiguous and left out of the index, `A` maps to its unique
pdf, and `Z` (no docx) is absent. -/
theorem validate_c2_amended_witness :
    ∃ idx evs, validate_docx_pdf_pairs ⟨[dirW], [reAny]⟩ = .ok (idx, evs) ∧
      VEvent.multiplePdf "B" "B" ∈ evs ∧ dictGet idx "B" = none ∧
      dictGet idx "A" = some ⟨"A", .ok [1]⟩ ∧ dictGet idx "Z" = none := by
  obtain ⟨idx, evs, hval, h1, h2⟩ :=
    validate_c2_amended dirW [reAny] rfl (by decide) (by decide)
  refine ⟨idx, evs, hval, ?_, ?_, ?_, ?_⟩
  · exact ((h1 "B" "B" (by decide) (by decide)).1 (by decide)).1
  · exact ((h1 "B" "B" (by decide) (by decide)).1 (by decide)).2
  · exact (h1 "A" "A" (by decide) (by decide)).2 ⟨"A", .ok [1]⟩ (by decide)
  · exact h2 "Z" (by decide)
